import Mathlib

/-!
Verification of the tabular data extraction and normalization engine of the
recruitment dashboard (`src/app.py`).

The Python source is shallowly embedded: DataFrame cells become the `Cell`
inductive, tables become `Table` (a header row plus data rows; a DataFrame is
rectangular, so out-of-range cell access within a row is modelled as the NaN
padding that pandas guarantees), machine floats become `ℚ`, and the external
pandas date parser is either a parameter (`parse : Cell → Option Date`) of the
functions that call `pd.to_datetime`, or the concrete instance `parseDateCell`
covering the fragment exercised by the witnesses (ISO `YYYY-MM-DD` strings and
native date cells).  Fallible Python operations (`float(...)`, cell access past
the last column) are embedded as `Option`.
-/

namespace App

/- ---------------- Basic string helpers (Python `str` fragment) ---------------- -/

/-- Character-level check that `a` is an initial segment of `b`
(used to embed Python substring tests). -/
def strStarts : List Char → List Char → Bool
  | [], _ => true
  | _ :: _, [] => false
  | a :: as, b :: bs => a == b && strStarts as bs

/-- Character-level substring occurrence check. -/
def listHasSub (needle : List Char) : List Char → Bool
  | [] => needle.isEmpty
  | b :: bs => strStarts needle (b :: bs) || listHasSub needle bs

/-- Python `needle in hay` on strings (case-sensitive substring test;
also the regex-free fragment of `Series.str.contains`). -/
def strHasSub (needle hay : String) : Bool := listHasSub needle.toList hay.toList

/-- Python `str.lower` (ASCII fragment). -/
def lowerStr (s : String) : String := String.mk (s.toList.map Char.toLower)

/-- Case-insensitive substring test, embedding `str.contains(..., case=False)`. -/
def strHasSubCI (needle hay : String) : Bool := strHasSub (lowerStr needle) (lowerStr hay)

def isSpaceCh (c : Char) : Bool :=
  c == ' ' || c == '\t' || c == '\n' || c == '\r' || c == '\x0b' || c == '\x0c'

/-- Python `str.strip()` (whitespace stripping on both ends). -/
def pyStrip (s : String) : String :=
  String.mk (((s.toList.dropWhile isSpaceCh).reverse.dropWhile isSpaceCh).reverse)

/-- Python `str.endswith(suffix)`. -/
def strEnds (suffix s : String) : Bool :=
  strStarts suffix.toList.reverse s.toList.reverse

def isDigitCh (c : Char) : Bool := '0' ≤ c && c ≤ '9'

def digitVal (c : Char) : Nat := c.toNat - '0'.toNat

def natOfDigits (cs : List Char) : Nat := cs.foldl (fun a c => a * 10 + digitVal c) 0

/-- Left-pad a string with zeros to width `k`. -/
def padZeros (s : String) (k : Nat) : String :=
  String.mk (List.replicate (k - s.length) '0') ++ s

def pad2 (n : Nat) : String := padZeros (toString n) 2

def pad4 (n : Nat) : String := padZeros (toString n) 4

/-- Python `float(s)` on a string: optional sign, decimal digits with an
optional fractional part (the fragment of the float grammar the source data
uses; exponents and underscores are outside the modelled fragment).
Returns `none` where Python raises `ValueError`. -/
def parseFloatChars (cs : List Char) : Option ℚ :=
  let sgn : ℚ × List Char :=
    match cs with
    | '-' :: t => (-1, t)
    | '+' :: t => (1, t)
    | t => (1, t)
  let ip := (sgn.2.takeWhile (fun c => c ≠ '.'))
  let rest := (sgn.2.dropWhile (fun c => c ≠ '.'))
  match rest with
  | [] =>
    if ip ≠ [] && ip.all isDigitCh then some (sgn.1 * natOfDigits ip) else none
  | _ :: fp =>
    if fp.all (fun c => c ≠ '.') && (ip ≠ [] || fp ≠ []) && ip.all isDigitCh && fp.all isDigitCh then
      some (sgn.1 * (((natOfDigits ip : ℚ) * 10 ^ fp.length + natOfDigits fp) / 10 ^ fp.length))
    else none

/-- Python `float(s)` (strings are stripped of surrounding whitespace first). -/
def parseFloatStr (s : String) : Option ℚ := parseFloatChars (pyStrip s).toList

/- ---------------- Cells and cell-level coercions ---------------- -/

/-- One spreadsheet cell as pandas sees it: a float, a string, a
date/timestamp, or a missing value (NaN / None / NaT). -/
inductive Cell where
  | num (q : ℚ)
  | str (s : String)
  | date (y m d : Nat)
  | nan
deriving DecidableEq, Repr

/-- Embedding of `pd.notna` on one cell. -/
def notna : Cell → Bool
  | .nan => false
  | _ => true

/-- Python `str(float)` for floats with a short decimal expansion; rationals
with no short decimal expansion are outside the modelled float fragment and get
a fallback spelling (never produced by the embedded pipeline). -/
def floatRepr (q : ℚ) : String :=
  let sgn := if q < 0 then "-" else ""
  let a := |q|
  match (List.range 18).find? (fun k => (a * 10 ^ k).den == 1) with
  | some k =>
    if k == 0 then sgn ++ toString a.num ++ ".0"
    else
      let n := (a * 10 ^ k).num.natAbs
      sgn ++ toString (n / 10 ^ k) ++ "." ++ padZeros (toString (n % 10 ^ k)) k
  | none => sgn ++ toString a.num ++ "div" ++ toString a.den

/-- Python `str(cell)` as produced by `.astype(str)`: NaN prints as "nan",
timestamps in the pandas `YYYY-MM-DD HH:MM:SS` shape. -/
def pyStr : Cell → String
  | .str s => s
  | .nan => "nan"
  | .num q => floatRepr q
  | .date y m d => pad4 y ++ "-" ++ pad2 m ++ "-" ++ pad2 d ++ " 00:00:00"

/-- Python `float(cell)`: floats pass through, numeric strings parse,
timestamps raise `TypeError` (`none`); the NaN case is always guarded by
`pd.notna` in the source, so its value is never observed. -/
def pyFloat : Cell → Option ℚ
  | .num q => some q
  | .str s => parseFloatStr s
  | .date _ _ _ => none
  | .nan => none

/-- Embedding of `pd.to_numeric(..., errors="coerce")` on one cell (`none` is NaN). -/
def pdToNumeric : Cell → Option ℚ
  | .num q => some q
  | .str s => parseFloatStr s
  | _ => none

/- ---------------- Dates ---------------- -/

/-- A calendar date (the payload of a pandas Timestamp at day resolution). -/
structure Date where
  year : Nat
  month : Nat
  day : Nat
deriving DecidableEq, Repr

/-- Embedding of `.dt.to_period("M").dt.to_timestamp()`: truncate to the first of the month. -/
def monthOf (d : Date) : Date := ⟨d.year, d.month, 1⟩

/-- Strict chronological order on dates (lexicographic year, month, day). -/
def dlt (a b : Date) : Prop :=
  a.year < b.year ∨ (a.year = b.year ∧
    (a.month < b.month ∨ (a.month = b.month ∧ a.day < b.day)))

instance : DecidableRel dlt := fun a b => by unfold dlt; infer_instance

/-- Non-strict chronological order on dates. -/
def dle (a b : Date) : Prop := ¬ dlt b a

instance : DecidableRel dle := fun a b => by unfold dle; infer_instance

instance : IsTotal Date dle := by
  constructor
  intro a b
  rcases a with ⟨ya, ma, da⟩
  rcases b with ⟨yb, mb, db⟩
  simp only [dle, dlt]
  omega

instance : IsTrans Date dle := by
  constructor
  intro a b c
  rcases a with ⟨ya, ma, da⟩
  rcases b with ⟨yb, mb, db⟩
  rcases c with ⟨yc, mc, dc⟩
  simp only [dle, dlt]
  omega

/-- ISO `YYYY-MM-DD` date strings (the fragment of the pandas date grammar the
witnesses use). -/
def parseIsoDate (s : String) : Option Date :=
  match s.toList with
  | [y1, y2, y3, y4, h1, m1, m2, h2, d1, d2] =>
    if isDigitCh y1 && isDigitCh y2 && isDigitCh y3 && isDigitCh y4 &&
       h1 == '-' && isDigitCh m1 && isDigitCh m2 && h2 == '-' &&
       isDigitCh d1 && isDigitCh d2 then
      let mo := natOfDigits [m1, m2]
      let dd := natOfDigits [d1, d2]
      if 1 ≤ mo && mo ≤ 12 && 1 ≤ dd && dd ≤ 31 then
        some ⟨natOfDigits [y1, y2, y3, y4], mo, dd⟩
      else none
    else none
  | _ => none

/-- Concrete instance of the pandas per-cell date parser (`pd.to_datetime` on a
single value): native date cells parse to themselves, ISO strings parse, other
cells fail.  Theorems about the pipeline quantify over an arbitrary parser;
this instance is only used to instantiate witnesses and counterexamples on
cells where it agrees with pandas. -/
def parseDateCell : Cell → Option Date
  | .date y m d => some ⟨y, m, d⟩
  | .str s => parseIsoDate (pyStrip s)
  | _ => none

/- ---------------- Tables ---------------- -/

/-- A loaded sheet: the header row (`df.columns`, which may hold literal
dates) and the data rows.  A DataFrame is rectangular with NaN padding, so
cell access past the end of a stored row yields NaN. -/
structure Table where
  headers : List Cell
  rows : List (List Cell)
deriving DecidableEq, Repr

def Table.empty : Table := ⟨[], []⟩

/-- Embedding of `row.iloc[i]` under the DataFrame rectangularity invariant. -/
def cellAt (r : List Cell) (i : Nat) : Cell := r.getD i .nan

/-- Embedding of `df.empty` (true when either axis has length zero). -/
def Table.isEmptyTab (t : Table) : Bool := t.rows.isEmpty || t.headers.isEmpty

/- ---------------- money_fmt (src/app.py lines 830-843) ---------------- -/

/-- Arguments `money_fmt` can receive: a float, NaN/None, or a non-numeric
object such as a string. -/
inductive MoneyIn where
  | num (q : ℚ)
  | nan
  | str (s : String)
deriving DecidableEq, Repr

/-- Floor of a rational, written directly on the numerator and denominator so
that kernel reduction (and hence `decide`) can evaluate it. -/
def ratFloor (x : ℚ) : ℤ := Int.fdiv x.num x.den

/-- Round to the nearest integer, ties to even (Python float formatting). -/
def roundHalfEven (x : ℚ) : ℤ :=
  let f : ℤ := ratFloor x
  let r : ℚ := x - f
  if r < 1 / 2 then f
  else if 1 / 2 < r then f + 1
  else if f % 2 = 0 then f else f + 1

/-- Insert a thousands separator after every third digit of a reversed digit
list. -/
def commaRev : List Char → List Char
  | a :: b :: c :: d :: rest => a :: b :: c :: ',' :: commaRev (d :: rest)
  | l => l

/-- Python `format(x, ",.<dec>f")`: fixed-point with `dec` decimals, half-even
rounding and comma-grouped integer part. -/
def fmtComma (q : ℚ) (dec : Nat) : String :=
  let n : ℤ := roundHalfEven (q * (10 : ℚ) ^ dec)
  let sgn := if n < 0 then "-" else ""
  let a := n.natAbs
  let ipStr := String.mk (commaRev (toString (a / 10 ^ dec)).toList.reverse).reverse
  let fpStr := if dec = 0 then "" else "." ++ padZeros (toString (a % 10 ^ dec)) dec
  sgn ++ ipStr ++ fpStr

/-- Embedding of `money_fmt` (src/app.py lines 830-843).  `pd.isna` catches NaN/None; for
any other non-numeric argument `abs(x)` raises and the handler returns
`str(x)`. -/
def money_fmt : MoneyIn → String
  | .nan => "—"
  | .str s => s
  | .num q =>
    if (1000000000 : ℚ) ≤ |q| then "$" ++ fmtComma (q / 1000000000) 2 ++ "B"
    else if (1000000 : ℚ) ≤ |q| then "$" ++ fmtComma (q / 1000000) 2 ++ "M"
    else if (1000 : ℚ) ≤ |q| then "$" ++ fmtComma (q / 1000) 1 ++ "k"
    else "$" ++ fmtComma q 0

/- ---------------- Tabular loaders (src/app.py lines 704-816) ---------------- -/

/-- Contents of a file on disk as the loaders see it: an Excel workbook
(named sheets) or a decodable text/CSV file already parsed into a table.
Decode/parse failures of existing files are handled inside the loader
`except` blocks and are outside the fragment the claims quantify over. -/
inductive FileData where
  | workbook (sheets : List (String × Table))
  | text (t : Table)

/-- Embedding of `file_path.lower().endswith((".xlsx", ".xls"))`. -/
def endsLikeExcel (p : String) : Bool :=
  strEnds ".xlsx" (lowerStr p) || strEnds ".xls" (lowerStr p)

def sheetKeywordHints : List String := ["consolidated", "data", "placement", "summary"]

/-- Embedding of `read_csv_file` (src/app.py lines 704-743).  The filesystem is a map from
paths to file contents; `os.path.exists` is membership.  An empty or missing
path returns the empty-DataFrame sentinel.  For workbooks, the first sheet
whose name contains a keyword hint is read, else the first sheet; a workbook
with no sheets, or a shape mismatch, trips the `except` branch and also yields
the empty sentinel. -/
def read_csv_file (fs : String → Option FileData) (path : String) : Table :=
  if path = "" then Table.empty
  else
    match fs path with
    | none => Table.empty
    | some fd =>
      if endsLikeExcel path then
        match fd with
        | .workbook sheets =>
          let names := sheets.map Prod.fst
          let target :=
            (names.find? (fun n => sheetKeywordHints.any (fun k => strHasSub k (lowerStr n)))).getD
              (names.getD 0 "")
          (sheets.lookup target).getD Table.empty
        | .text _ => Table.empty
      else
        match fd with
        | .text t => t
        | .workbook _ => Table.empty

/-- The result dictionary of `read_placement_report_excel` when the file
exists and is an Excel file. -/
structure PlacementSheets where
  sheet1_employment : Table
  sheet2_placements : Table
  sheet3_margins : Table
  sheet4_additional : Table
  sheet_names : List String
  success : Bool
deriving DecidableEq, Repr

/-- Embedding of `read_placement_report_excel` (src/app.py lines 745-816).  Missing/empty
paths and non-Excel extensions return the empty dictionary (`none`); an
unreadable workbook returns the failure dictionary with empty sheets;
otherwise sheets 1, 2 and 4 are read positionally and the margins sheet is
the first one whose name contains "gross" or "margin". -/
def read_placement_report_excel (fs : String → Option FileData) (path : String) :
    Option PlacementSheets :=
  if path = "" then none
  else
    match fs path with
    | none => none
    | some fd =>
      if endsLikeExcel path then
        match fd with
        | .text _ => some ⟨Table.empty, Table.empty, Table.empty, Table.empty, [], false⟩
        | .workbook sheets =>
          let names := sheets.map Prod.fst
          some
            { sheet1_employment := ((sheets.get? 0).map Prod.snd).getD Table.empty
              sheet2_placements := ((sheets.get? 1).map Prod.snd).getD Table.empty
              sheet3_margins :=
                match names.find? (fun n =>
                    strHasSub "gross" (lowerStr n) || strHasSub "margin" (lowerStr n)) with
                | some gn => (sheets.lookup gn).getD Table.empty
                | none => Table.empty
              sheet4_additional := ((sheets.get? 3).map Prod.snd).getD Table.empty
              sheet_names := names
              success := true }
      else none

/- ---------------- Metric locator (src/app.py lines 946-993) ---------------- -/

/-- Per-cell numeric coercion used by `process_placement_report`:
`float(val) if pd.notna(val) else 0` with `ValueError`/`TypeError` handled as
`0`, so NaN, non-numeric strings and timestamps all become `0`. -/
def coerceCellPR (c : Cell) : ℚ := if notna c then (pyFloat c).getD 0 else 0

/-- The row-locating pattern of `process_placement_report` (src/app.py lines
963-991), parameterised by the metric label: the first row whose label column
(`iloc[:, 0]`, rendered with `astype(str)`) contains the label
case-insensitively supplies the cells of columns `1 .. len(months)`, each
coerced with `coerceCellPR`; if no row matches, the metric is absent
(`none`). -/
def locate_series (t : Table) (label : String) : Option (List ℚ) :=
  let nMonths := t.headers.length - 1
  match t.rows.find? (fun r => strHasSubCI label (pyStr (cellAt r 0))) with
  | none => none
  | some r => some ((List.range nMonths).map (fun i => coerceCellPR (cellAt r (i + 1))))

def employmentTypeNames : List String := ["W2", "C2C", "1099", "Referral"]

def placementMetricNames : List String :=
  ["New Placements", "Terminations", "Net Placements", "Net billables", "Total billables"]

/-- Result of `process_placement_report`: metric keys are present only for
labels some row matched. -/
structure PlacementReport where
  employment_data : List (String × List ℚ)
  placement_data : List (String × List ℚ)
  months : List Cell
deriving DecidableEq, Repr

/-- Embedding of `process_placement_report` (src/app.py lines 946-993).  An empty frame
returns the empty dictionary (`none`). -/
def process_placement_report (t : Table) : Option PlacementReport :=
  if t.isEmptyTab then none
  else
    some
      { employment_data :=
          employmentTypeNames.filterMap (fun l => (locate_series t l).map (fun v => (l, v)))
        placement_data :=
          placementMetricNames.filterMap (fun l => (locate_series t l).map (fun v => (l, v)))
        months := t.headers.drop 1 }

/- ------------- Business-unit extraction (src/app.py lines 1778-1867) ------------- -/

def isDateCell : Cell → Bool
  | .date _ _ _ => true
  | _ => false

/-- Embedding of `strftime("%b")`. -/
def monthName : Nat → String
  | 1 => "Jan" | 2 => "Feb" | 3 => "Mar" | 4 => "Apr" | 5 => "May" | 6 => "Jun"
  | 7 => "Jul" | 8 => "Aug" | 9 => "Sep" | 10 => "Oct" | 11 => "Nov" | 12 => "Dec"
  | _ => ""

/-- Indices of the datetime-typed header columns (the month columns of a
business-unit sheet). -/
def monthColIdxs (t : Table) : List Nat :=
  (List.range t.headers.length).filter (fun i => isDateCell (t.headers.getD i .nan))

/-- The month names row of `extract_business_unit_data`. -/
def monthNamesOf (t : Table) : List String :=
  (monthColIdxs t).map (fun i =>
    match t.headers.getD i .nan with
    | .date _ m _ => monthName m
    | _ => "")

/-- Strict per-cell coercion of `extract_business_unit_data`:
`float(val) if pd.notna(val) and val != '' else 0`; here a `none` result is a
raised exception, which zero-fills the whole series (see `unitSeries`). -/
def coerceStrict (c : Cell) : Option ℚ :=
  if notna c && !(c == .str "") then pyFloat c else some 0

/-- One metric block of `extract_business_unit_data` (src/app.py lines
1808-1851): look for `needle` (case-sensitively) in column `labelCol`; if the
label column is out of range, or no row matches, or any month cell fails the
strict coercion, the series is `[0] * len(month_columns)`; otherwise it is the
coerced month cells of the first matching row. -/
def unitSeries (t : Table) (labelCol : Nat) (needle : String) : List ℚ :=
  let mIdx := monthColIdxs t
  if labelCol < t.headers.length then
    match t.rows.find? (fun r => strHasSub needle (pyStr (cellAt r labelCol))) with
    | none => List.replicate mIdx.length 0
    | some r =>
      match mIdx.mapM (fun i => coerceStrict (cellAt r i)) with
      | some vs => vs
      | none => List.replicate mIdx.length 0
  else List.replicate mIdx.length 0

/-- Result of `extract_business_unit_data` (the empty dictionary of the
`df.empty` branch is modelled as all-empty fields). -/
structure UnitData where
  months : List String
  revenue : List ℚ
  gross_income : List ℚ
  net_income : List ℚ
deriving DecidableEq, Repr

/-- Embedding of `extract_business_unit_data` (src/app.py lines 1778-1867).  Revenue is
looked up in column 1, gross and net income in column 0. -/
def extract_business_unit_data (t : Table) : UnitData :=
  if t.isEmptyTab then ⟨[], [], [], []⟩
  else
    { months := monthNamesOf t
      revenue := unitSeries t 1 "Revenue"
      gross_income := unitSeries t 0 "Gross Income"
      net_income := unitSeries t 0 "Net Income" }

/- ------------- Margin sheet extraction (src/app.py lines 1073-1135) ------------- -/

/-- The record of one company in `process_sheet3_margins`. -/
structure MarginEntry where
  year_2024 : ℚ
  year_2025 : ℚ
  total : ℚ
deriving DecidableEq, Repr

def marginHeaderSkip : List String := ["2024", "2025", "total", "nan"]

/-- Embedding of `row.iloc[i]` with the bounds check of positional access on a frame with
`ncols` columns: `none` is a raised `IndexError`. -/
def icellOpt (r : List Cell) (i ncols : Nat) : Option Cell :=
  if i < ncols then some (cellAt r i) else none

/-- One iteration of the row loop of `process_sheet3_margins` (src/app.py
lines 1103-1126): `none` is a `continue` (blank/header label, out-of-range
cell access, or a failed `float(...)`). -/
def parseMarginRow (ncols : Nat) (r : List Cell) : Option (String × MarginEntry) :=
  let c0 := cellAt r 0
  if notna c0 = false then none
  else
    let name := pyStrip (pyStr c0)
    if name = "" then none
    else if (lowerStr name) ∈ marginHeaderSkip then none
    else
      match icellOpt r 1 ncols, icellOpt r 2 ncols, icellOpt r 3 ncols with
      | some c1, some c2, some c3 =>
        match (if notna c1 then pyFloat c1 else some 0) with
        | none => none
        | some y24 =>
          match (if notna c2 then pyFloat c2 else some 0) with
          | none => none
          | some y25 =>
            match (if notna c3 then pyFloat c3 else some (y24 + y25)) with
            | none => none
            | some tot => some (name, ⟨y24, y25, tot⟩)
      | _, _, _ => none

/-- Result of `process_sheet3_margins` (the empty dictionary of the
`df.empty` branch is modelled as both lists empty). -/
structure MarginResult where
  margin_data : List (String × MarginEntry)
  companies : List String
deriving DecidableEq, Repr

/-- Python dict insertion `margin_data[name] = entry`: overwrite the value at
an existing key in place, else append. -/
def insertAssoc (l : List (String × MarginEntry)) (kv : String × MarginEntry) :
    List (String × MarginEntry) :=
  match l with
  | [] => [kv]
  | (k, v) :: rest => if k = kv.1 then (k, kv.2) :: rest else (k, v) :: insertAssoc rest kv

/-- The hard-coded sample table of `process_sheet3_margins` (src/app.py lines
1091-1097). -/
def sampleMarginData : List (String × MarginEntry) :=
  [("Techgene 1099", ⟨30, 15, 45⟩), ("TG C2C", ⟨45, 30, 75⟩), ("TG W2", ⟨50, 35, 110⟩),
   ("VNST C2C", ⟨2, 10, 12⟩), ("VNST W2", ⟨5, 15, 20⟩)]

/-- Embedding of `process_sheet3_margins` (src/app.py lines 1073-1135): parse each row; if
no row parsed (`data_found` stays false) fall back to the sample table. -/
def process_sheet3_margins (t : Table) : MarginResult :=
  if t.isEmptyTab then ⟨[], []⟩
  else
    let parsed := t.rows.filterMap (parseMarginRow t.headers.length)
    if parsed.isEmpty then ⟨sampleMarginData, sampleMarginData.map Prod.fst⟩
    else ⟨parsed.foldl insertAssoc [], parsed.map Prod.fst⟩

/-- The data fields of the Chart.js dictionary built by
`create_gross_margin_chart_from_sheets`; the static styling entries of the
`options` sub-dictionary are constants and are not modelled. -/
structure MarginChart where
  ctype : String
  labels : List String
  datasets : List (String × List ℚ)
deriving DecidableEq, Repr

/-- Embedding of `create_gross_margin_chart_from_sheets` (src/app.py lines 2399-2490). -/
def create_gross_margin_chart_from_sheets (m : MarginResult) : MarginChart :=
  if m.margin_data.isEmpty then ⟨"line", [], []⟩
  else
    ⟨"bar", m.margin_data.map Prod.fst,
      [("2024", m.margin_data.map (fun kv => kv.2.year_2024)),
       ("2025", m.margin_data.map (fun kv => kv.2.year_2025)),
       ("Total", m.margin_data.map (fun kv => kv.2.total))]⟩

/- ------------- Date normalizer (src/app.py lines 818-828) ------------- -/

/-- The auto-detected date-candidate columns of `try_parse_dates`: name
contains "date" (case-insensitively) or equals "month"/"period". -/
def dateColCandidates (t : Table) : List Nat :=
  (List.range t.headers.length).filter (fun i =>
    let n := lowerStr (pyStr (t.headers.getD i .nan))
    strHasSub "date" n || n == "month" || n == "period")

def colCells (t : Table) (i : Nat) : List Cell := t.rows.map (fun r => cellAt r i)

/-- Whether `pd.to_datetime(column, errors="ignore")` succeeds on the whole
column: every non-null cell must parse (null cells become NaT, not errors). -/
def colAllParse (parse : Cell → Option Date) (cells : List Cell) : Bool :=
  cells.all (fun c => !notna c || (parse c).isSome)

/-- The per-cell effect of a successful column conversion. -/
def convertCell (parse : Cell → Option Date) (c : Cell) : Cell :=
  match c with
  | .nan => .nan
  | c =>
    match parse c with
    | some d => .date d.year d.month d.day
    | none => c

/-- Embedding of `try_parse_dates` (src/app.py lines 818-828), parameterised by the pandas
per-cell parser.  `pd.to_datetime(df[c], errors="ignore")` converts a column
only when every cell parses and otherwise returns the column unchanged, so the
embedding converts candidate column `i` exactly when `colAllParse` holds of
it.  Candidate columns are given by index (`candidate_cols` pre-resolved
against `df.columns`), defaulting to the name-based auto-detection. -/
def try_parse_dates (parse : Cell → Option Date) (t : Table) (cands : Option (List Nat)) :
    Table :=
  if t.isEmptyTab then t
  else
    let cs := cands.getD (dateColCandidates t)
    { headers := t.headers
      rows := t.rows.map (fun r =>
        r.enum.map (fun ic =>
          if decide (ic.1 ∈ cs) && colAllParse parse (colCells t ic.1) then
            convertCell parse ic.2
          else ic.2)) }

/- ------------- Monthly rollup engine (src/app.py lines 847-861) ------------- -/

/-- A pandas aggregation function name as used in `agg_map`. -/
inductive Agg where
  | sum
  | mean
deriving DecidableEq, Repr

/-- Pandas aggregation over a column of a group, where `none` is NaN:
`sum` skips NaN (an all-NaN column sums to 0), `mean` averages the non-NaN
entries (NaN when there are none). -/
def aggApply (a : Agg) (xs : List (Option ℚ)) : Option ℚ :=
  match a with
  | .sum => some (xs.filterMap id).sum
  | .mean =>
    let v := xs.filterMap id
    if v.isEmpty then none else some (v.sum / v.length)

/-- The sorted, duplicate-free group keys produced by `groupby` (pandas sorts
group keys ascending) followed by `sort_values`. -/
def sortedMonths (l : List Date) : List Date := List.insertionSort dle l.dedup

/-- Embedding of `monthly_rollup` (src/app.py lines 847-861), parameterised by the pandas
date parser.  A row is its date-column cell paired with its already
numeric-coerced aggregation columns (`pd.to_numeric(..., errors="coerce")`,
`none` being NaN); the frame-level guard (`df.empty or date_col not in
df.columns`) yields the empty frame upstream of this function and corresponds
to the empty row list.  Unparseable dates are dropped (`errors="coerce"` +
`dropna`), dates are truncated to month starts, and each group aggregates each
column with its declared function. -/
def monthly_rollup (parse : Cell → Option Date) (rows : List (Cell × List (Option ℚ)))
    (aggs : List Agg) : List (Date × List (Option ℚ)) :=
  let parsed := rows.filterMap (fun r => (parse r.1).map (fun dt => (monthOf dt, r.2)))
  (sortedMonths (parsed.map Prod.fst)).map (fun mo =>
    (mo, (List.range aggs.length).map (fun i =>
      aggApply (aggs.getD i .sum)
        ((parsed.filter (fun p => decide (p.1 = mo))).map (fun p => p.2.getD i none)))))

/- ------------- P&L computation (src/app.py lines 863-898) ------------- -/

/-- One transaction row of the flexible P&L input with the `ColumnMapping`
already resolved: the date cell plus, for each primitive, the cells of its
mapped columns (an empty list when the mapping supplies no columns, in which
case the source sets the primitive to the literal 0). -/
structure PLRow where
  date : Cell
  revenue : List Cell
  cogs : List Cell
  opex : List Cell
  other_income : List Cell
  other_expense : List Cell
deriving DecidableEq, Repr

/-- Embedding of `df[cols].sum(axis=1)` after `pd.to_numeric(..., errors="coerce")`:
NaN cells contribute 0, and an empty column list sums to 0 (matching the
`if cols else 0` branch). -/
def rowSum (cells : List Cell) : ℚ := (cells.map (fun c => (pdToNumeric c).getD 0)).sum

/-- The per-row derived columns `__revenue .. __net_income` of
`compute_pl_fields` (src/app.py lines 870-881), in the order of the
aggregation map of lines 887-896. -/
def plDerived (r : PLRow) : List (Option ℚ) :=
  let rev := rowSum r.revenue
  let cog := rowSum r.cogs
  let opx := rowSum r.opex
  let oi := rowSum r.other_income
  let oe := rowSum r.other_expense
  let gp := rev - cog
  let op := gp - opx
  let ni := op + oi - oe
  [some rev, some cog, some opx, some gp, some op, some oi, some oe, some ni]

/-- Embedding of `compute_pl_fields` (src/app.py lines 863-898): build the per-row derived
columns, then roll them up monthly with `sum` aggregation on every column.
The preliminary `try_parse_dates` pass is absorbed into the parser parameter,
since the rollup re-coerces the date column itself. -/
def compute_pl_fields (parse : Cell → Option Date) (rows : List PLRow) :
    List (Date × List (Option ℚ)) :=
  monthly_rollup parse (rows.map (fun r => (r.date, plDerived r))) (List.replicate 8 .sum)

/- ------------- JSON cleaning (src/app.py lines 3222-3254) ------------- -/

mutual

/-- A Python value as `clean_data_for_json` can receive it: dicts (whose keys
are themselves arbitrary values), lists, pandas Timestamps, `datetime`
objects, other objects carrying `year`/`month` attributes, JSON primitives,
and arbitrary other objects (carried with their `str(...)` rendering). -/
inductive PyVal where
  | dict (d : PyDict)
  | pylist (l : PyList)
  | timestamp (y mo d hh mi s : Nat)
  | datetime (y mo d hh mi s : Nat)
  | datelike (y mo : Nat) (s : String)
  | intv (n : ℤ)
  | floatv (q : ℚ)
  | strv (s : String)
  | boolv (b : Bool)
  | nonev
  | obj (s : String)

/-- The entries of a Python dict, in insertion order. -/
inductive PyDict where
  | nil
  | cons (k v : PyVal) (rest : PyDict)

/-- The elements of a Python list. -/
inductive PyList where
  | nil
  | cons (v : PyVal) (rest : PyList)

end

/-- Embedding of `Timestamp.strftime("%Y-%m-%d %H:%M:%S")`. -/
def tsString (y mo d hh mi s : Nat) : String :=
  pad4 y ++ "-" ++ pad2 mo ++ "-" ++ pad2 d ++ " " ++
    pad2 hh ++ ":" ++ pad2 mi ++ ":" ++ pad2 s

mutual

/-- Embedding of `clean_data_for_json` (src/app.py lines 3222-3254): recurse into dict
values and list items, stringify timestamps, datetimes, year/month-carrying
objects and unknown objects, and pass JSON primitives through.  Dict keys are
left exactly as they are (`cleaned_dict[key] = clean_data_for_json(value)`). -/
def clean_data_for_json : PyVal → PyVal
  | .dict d => .dict (cleanDict d)
  | .pylist l => .pylist (cleanList l)
  | .timestamp y mo d hh mi s => .strv (tsString y mo d hh mi s)
  | .datetime y mo d hh mi s => .strv (tsString y mo d hh mi s)
  | .datelike _ _ s => .strv s
  | .intv n => .intv n
  | .floatv q => .floatv q
  | .strv s => .strv s
  | .boolv b => .boolv b
  | .nonev => .nonev
  | .obj s => .strv s

def cleanDict : PyDict → PyDict
  | .nil => .nil
  | .cons k v rest => .cons k (clean_data_for_json v) (cleanDict rest)

def cleanList : PyList → PyList
  | .nil => .nil
  | .cons v rest => .cons (clean_data_for_json v) (cleanList rest)

end

mutual

/-- Every value reachable through dict values, list elements or the root is a
mapping, sequence, number, string, boolean or null (dict keys are not
inspected). -/
def valuesJsonReady : PyVal → Bool
  | .dict d => dictValuesJsonReady d
  | .pylist l => listValuesJsonReady l
  | .timestamp _ _ _ _ _ _ => false
  | .datetime _ _ _ _ _ _ => false
  | .datelike _ _ _ => false
  | .obj _ => false
  | _ => true

def dictValuesJsonReady : PyDict → Bool
  | .nil => true
  | .cons _ v rest => valuesJsonReady v && dictValuesJsonReady rest

def listValuesJsonReady : PyList → Bool
  | .nil => true
  | .cons v rest => valuesJsonReady v && listValuesJsonReady rest

end

mutual

/-- Whether a native date/timestamp-like object occurs anywhere in the value,
dict keys included. -/
def hasTemporal : PyVal → Bool
  | .dict d => dictHasTemporal d
  | .pylist l => listHasTemporal l
  | .timestamp _ _ _ _ _ _ => true
  | .datetime _ _ _ _ _ _ => true
  | .datelike _ _ _ => true
  | _ => false

def dictHasTemporal : PyDict → Bool
  | .nil => false
  | .cons k v rest => hasTemporal k || hasTemporal v || dictHasTemporal rest

def listHasTemporal : PyList → Bool
  | .nil => false
  | .cons v rest => hasTemporal v || listHasTemporal rest

end

/- ================= Theorems ================= -/

/- ---------- C7: money_fmt ---------- -/

/-- C7 (amended): `money_fmt` renders NaN/None as the em-dash and picks the
fixed magnitude thresholds (≥1e9 two-decimal "B", ≥1e6 two-decimal "M", ≥1e3
one-decimal "k", otherwise no decimals) for numeric input; it is total, but
for a non-numeric, non-null argument the `except` handler returns `str(x)`,
not the em-dash. -/
theorem money_fmt_thresholds (q : ℚ) (s : String) :
    money_fmt .nan = "—"
    ∧ ((1000000000 : ℚ) ≤ |q| →
        money_fmt (.num q) = "$" ++ fmtComma (q / 1000000000) 2 ++ "B")
    ∧ ((1000000 : ℚ) ≤ |q| → |q| < 1000000000 →
        money_fmt (.num q) = "$" ++ fmtComma (q / 1000000) 2 ++ "M")
    ∧ ((1000 : ℚ) ≤ |q| → |q| < 1000000 →
        money_fmt (.num q) = "$" ++ fmtComma (q / 1000) 1 ++ "k")
    ∧ (|q| < 1000 → money_fmt (.num q) = "$" ++ fmtComma q 0)
    ∧ money_fmt (.str s) = s := by
  refine ⟨rfl, ?_, ?_, ?_, ?_, rfl⟩
  · intro h1
    simp only [money_fmt, if_pos h1]
  · intro h1 h2
    simp only [money_fmt, if_neg (not_le.mpr h2), if_pos h1]
  · intro h1 h2
    have h3 : ¬ (1000000000 : ℚ) ≤ |q| := by linarith
    simp only [money_fmt, if_neg h3, if_neg (not_le.mpr h2), if_pos h1]
  · intro h1
    have h2 : ¬ (1000000000 : ℚ) ≤ |q| := by linarith
    have h3 : ¬ (1000000 : ℚ) ≤ |q| := by linarith
    simp only [money_fmt, if_neg h2, if_neg h3, if_neg (not_le.mpr h1)]

unseal Rat.add Rat.mul Rat.sub Rat.inv in
theorem money_fmt_thresholds_witness :
    (1000000000 : ℚ) ≤ |(2500000000 : ℚ)|
    ∧ money_fmt (.num 2500000000) = "$" ++ fmtComma ((2500000000 : ℚ) / 1000000000) 2 ++ "B"
    ∧ money_fmt (.num 2500000000) = "$2.50B"
    ∧ money_fmt (.str "n/a") = "n/a" :=
  ⟨by decide, (money_fmt_thresholds 2500000000 "n/a").2.1 (by decide), by decide,
   (money_fmt_thresholds 2500000000 "n/a").2.2.2.2.2⟩

/-- C7 counterexample: on the non-numeric input `"n/a"` the function returns
`str(x) = "n/a"`, not the em-dash placeholder claimed for every non-numeric
input. -/
theorem money_fmt_non_numeric_counterexample :
    money_fmt (.str "n/a") = "n/a" ∧ "n/a" ≠ "—" := by
  exact ⟨rfl, by decide⟩

/- ---------- C8: loaders on missing files ---------- -/

/-- C8: for an empty path or a path that does not exist on the filesystem,
`read_csv_file` returns the empty-DataFrame sentinel and
`read_placement_report_excel` returns the empty dictionary; neither raises
(both are total functions of the modelled state). -/
theorem loaders_missing_file_sentinel (fs : String → Option FileData) (path : String)
    (h : path = "" ∨ fs path = none) :
    read_csv_file fs path = Table.empty ∧ read_placement_report_excel fs path = none := by
  by_cases hp : path = ""
  · subst hp
    exact ⟨rfl, rfl⟩
  · rcases h with h | h
    · exact absurd h hp
    · constructor
      · simp [read_csv_file, hp, h]
      · simp [read_placement_report_excel, hp, h]

theorem loaders_missing_file_sentinel_witness :
    read_csv_file (fun _ => none) "missing.xlsx" = Table.empty
    ∧ read_placement_report_excel (fun _ => none) "missing.xlsx" = none :=
  loaders_missing_file_sentinel (fun _ => none) "missing.xlsx" (Or.inr rfl)

/- ---------- C10: margin row totals ---------- -/

/-- C10: for every row the margin-sheet loop parses into an entry, the
recorded total is the float value of the fourth cell when that cell is non-null,
and otherwise the sum of the recorded 2024 and 2025 values; each year value is
itself 0 when its own cell is null. -/
theorem margin_row_total_rule (ncols : Nat) (r : List Cell) (name : String) (e : MarginEntry)
    (h : parseMarginRow ncols r = some (name, e)) :
    (notna (cellAt r 3) = true → pyFloat (cellAt r 3) = some e.total)
    ∧ (notna (cellAt r 3) = false → e.total = e.year_2024 + e.year_2025)
    ∧ (notna (cellAt r 1) = false → e.year_2024 = 0)
    ∧ (notna (cellAt r 2) = false → e.year_2025 = 0) := by
  simp only [parseMarginRow] at h
  by_cases h0 : notna (cellAt r 0) = false
  · rw [if_pos h0] at h
    cases h
  · rw [if_neg h0] at h
    by_cases h1 : pyStrip (pyStr (cellAt r 0)) = ""
    · rw [if_pos h1] at h
      cases h
    · rw [if_neg h1] at h
      by_cases h2 : lowerStr (pyStrip (pyStr (cellAt r 0))) ∈ marginHeaderSkip
      · rw [if_pos h2] at h
        cases h
      · rw [if_neg h2] at h
        split at h
        case _ c1 c2 c3 heq1 heq2 heq3 =>
          have hc1 : cellAt r 1 = c1 := by
            unfold icellOpt at heq1
            split at heq1
            · injection heq1
            · cases heq1
          have hc2 : cellAt r 2 = c2 := by
            unfold icellOpt at heq2
            split at heq2
            · injection heq2
            · cases heq2
          have hc3 : cellAt r 3 = c3 := by
            unfold icellOpt at heq3
            split at heq3
            · injection heq3
            · cases heq3
          subst hc1
          subst hc2
          subst hc3
          split at h
          · cases h
          case _ y24 h24 =>
            split at h
            · cases h
            case _ y25 h25 =>
              split at h
              · cases h
              case _ tot htot =>
                simp only [Option.some.injEq, Prod.mk.injEq] at h
                obtain ⟨-, he⟩ := h
                subst he
                refine ⟨?_, ?_, ?_, ?_⟩
                · intro hn3
                  rw [if_pos hn3] at htot
                  exact htot
                · intro hn3
                  rw [if_neg (by simp [hn3])] at htot
                  simpa using htot.symm
                · intro hn1
                  rw [if_neg (by simp [hn1])] at h24
                  simpa using h24.symm
                · intro hn2
                  rw [if_neg (by simp [hn2])] at h25
                  simpa using h25.symm
        · cases h

unseal Rat.add Rat.mul Rat.sub Rat.inv in
theorem margin_row_total_rule_witness :
    parseMarginRow 4 [.str "TG W2", .num 5, .num 7, .nan] = some ("TG W2", ⟨5, 7, 12⟩)
    ∧ (notna (cellAt [Cell.str "TG W2", .num 5, .num 7, .nan] 3) = false →
        (12 : ℚ) = 5 + 7) :=
  ⟨by decide,
   fun h12 =>
     (margin_row_total_rule 4 [.str "TG W2", .num 5, .num 7, .nan] "TG W2" ⟨5, 7, 12⟩
       (by decide)).2.1 h12⟩

/- ---------- C2: margin sheet with no parseable data ---------- -/

/-- The concrete margin sheet used as counterexample input: non-empty, but its
only row carries the header label "2024" and is therefore skipped, so no data
row parses. -/
def c2df : Table :=
  ⟨[.str "Company", .str "2024", .str "2025", .str "Total"],
   [[.str "2024", .num 1, .num 2, .num 3]]⟩

/-- C2 (amended): when the margin sheet is empty, the extraction returns the
empty dictionary and the chart falls back to the empty line-chart, with no
exception; but when the sheet is non-empty and no data row parses, the
extraction injects the hard-coded sample table and the downstream chart
carries the sample values — not zeros. -/
theorem margins_no_data_sample_fallback (t : Table) :
    (t.isEmptyTab = true →
      process_sheet3_margins t = ⟨[], []⟩
      ∧ create_gross_margin_chart_from_sheets (process_sheet3_margins t) = ⟨"line", [], []⟩)
    ∧ (t.isEmptyTab = false →
      t.rows.filterMap (parseMarginRow t.headers.length) = [] →
      process_sheet3_margins t = ⟨sampleMarginData, sampleMarginData.map Prod.fst⟩
      ∧ (create_gross_margin_chart_from_sheets (process_sheet3_margins t)).datasets =
          [("2024", [30, 45, 50, 2, 5]), ("2025", [15, 30, 35, 10, 15]),
           ("Total", [45, 75, 110, 12, 20])]) := by
  constructor
  · intro h
    have hp : process_sheet3_margins t = ⟨[], []⟩ := by
      simp [process_sheet3_margins, h]
    exact ⟨hp, by rw [hp]; rfl⟩
  · intro h hp
    have hproc : process_sheet3_margins t = ⟨sampleMarginData, sampleMarginData.map Prod.fst⟩ := by
      simp [process_sheet3_margins, h, hp]
    refine ⟨hproc, ?_⟩
    rw [hproc]
    rfl

unseal Rat.add Rat.mul Rat.sub Rat.inv in
theorem margins_no_data_sample_fallback_witness :
    c2df.isEmptyTab = false
    ∧ c2df.rows.filterMap (parseMarginRow c2df.headers.length) = []
    ∧ process_sheet3_margins c2df = ⟨sampleMarginData, sampleMarginData.map Prod.fst⟩ :=
  ⟨by decide, by decide,
   ((margins_no_data_sample_fallback c2df).2 (by decide) (by decide)).1⟩

unseal Rat.add Rat.mul Rat.sub Rat.inv in
/-- C2 counterexample: on the non-empty sheet `c2df` in which no data row
parses, the downstream gross-margin chart carries the canned sample totals
`[45, 75, 110, 12, 20]`, not a zero default, refuting the claim that no
substitute numbers are injected. -/
theorem margins_sample_injection_counterexample :
    (create_gross_margin_chart_from_sheets (process_sheet3_margins c2df)).datasets.lookup
        "Total" = some [45, 75, 110, 12, 20]
    ∧ some [(45 : ℚ), 75, 110, 12, 20] ≠ some (List.replicate 5 (0 : ℚ)) := by
  exact ⟨by decide, by decide⟩

/- ---------- C9: JSON cleaning ---------- -/

mutual

theorem valuesReadyOfClean : ∀ v : PyVal, valuesJsonReady (clean_data_for_json v) = true
  | .dict d => by
    simp only [clean_data_for_json, valuesJsonReady]
    exact dictValuesReadyOfClean d
  | .pylist l => by
    simp only [clean_data_for_json, valuesJsonReady]
    exact listValuesReadyOfClean l
  | .timestamp _ _ _ _ _ _ => by simp [clean_data_for_json, valuesJsonReady]
  | .datetime _ _ _ _ _ _ => by simp [clean_data_for_json, valuesJsonReady]
  | .datelike _ _ _ => by simp [clean_data_for_json, valuesJsonReady]
  | .intv _ => by simp [clean_data_for_json, valuesJsonReady]
  | .floatv _ => by simp [clean_data_for_json, valuesJsonReady]
  | .strv _ => by simp [clean_data_for_json, valuesJsonReady]
  | .boolv _ => by simp [clean_data_for_json, valuesJsonReady]
  | .nonev => by simp [clean_data_for_json, valuesJsonReady]
  | .obj _ => by simp [clean_data_for_json, valuesJsonReady]

theorem dictValuesReadyOfClean : ∀ d : PyDict, dictValuesJsonReady (cleanDict d) = true
  | .nil => by simp [cleanDict, dictValuesJsonReady]
  | .cons k v rest => by
    simp only [cleanDict, dictValuesJsonReady, Bool.and_eq_true]
    exact ⟨valuesReadyOfClean v, dictValuesReadyOfClean rest⟩

theorem listValuesReadyOfClean : ∀ l : PyList, listValuesJsonReady (cleanList l) = true
  | .nil => by simp [cleanList, listValuesJsonReady]
  | .cons v rest => by
    simp only [cleanList, listValuesJsonReady, Bool.and_eq_true]
    exact ⟨valuesReadyOfClean v, listValuesReadyOfClean rest⟩

end

/-- C9 (amended): the cleaned tree is JSON-ready in every value position —
dict values, list elements and the root contain only mappings, sequences,
numbers, strings, booleans and nulls, every date/timestamp-like value having
been stringified — but dict keys are passed through unmodified, so a
date/timestamp used as a dict key survives (see the counterexample). -/
theorem clean_data_values_json_ready (v : PyVal) :
    valuesJsonReady (clean_data_for_json v) = true :=
  valuesReadyOfClean v

/-- The counterexample input for C9: a dict keyed by a pandas Timestamp. -/
def c9input : PyVal := .dict (.cons (.timestamp 2025 1 1 0 0 0) (.intv 1) .nil)

/-- C9 counterexample: cleaning a dict whose key is a Timestamp leaves the
Timestamp in the output (`cleaned_dict[key] = ...` never touches keys), so a
native timestamp object does remain in the output tree, refuting the claim
that none remains anywhere. -/
theorem clean_data_timestamp_key_counterexample :
    clean_data_for_json c9input =
      .dict (.cons (.timestamp 2025 1 1 0 0 0) (.intv 1) .nil)
    ∧ hasTemporal (clean_data_for_json c9input) = true := by
  constructor
  · simp [c9input, clean_data_for_json, cleanDict]
  · simp [c9input, clean_data_for_json, cleanDict, hasTemporal, dictHasTemporal]

/- ---------- C1 / C5 helper lemmas ---------- -/

theorem find?_first {α : Type} (p : α → Bool) :
    ∀ (l : List α) (a : α), l.find? p = some a →
      ∃ i, l.get? i = some a ∧ p a = true ∧
        ∀ j b, j < i → l.get? j = some b → p b = false := by
  intro l
  induction l with
  | nil => intro a h; cases h
  | cons x xs ih =>
    intro a h
    by_cases hx : p x = true
    · simp only [List.find?, hx] at h
      obtain rfl : x = a := by injection h
      exact ⟨0, rfl, hx, fun j b hj _ => absurd hj (by omega)⟩
    · have hx' : p x = false := by simpa using hx
      simp only [List.find?, hx'] at h
      obtain ⟨i, hg, hp, hf⟩ := ih a h
      refine ⟨i + 1, by simpa using hg, hp, ?_⟩
      intro j b hj hgb
      match j with
      | 0 =>
        obtain rfl : x = b := by injection hgb
        exact hx'
      | j + 1 =>
        exact hf j b (by omega) (by simpa using hgb)

theorem lookup_vocab_absent (ls : List String) (f : String → Option (List ℚ))
    (label : String) (hf : f label = none) :
    (ls.filterMap (fun l => (f l).map (fun v => (l, v)))).lookup label = none := by
  induction ls with
  | nil => rfl
  | cons a tl ih =>
    cases hfa : f a with
    | none => simpa [hfa] using ih
    | some v =>
      have hne : (label == a) = false := by
        by_cases hl : label = a
        · rw [hl] at hf
          rw [hfa] at hf
          cases hf
        · simp [hl]
      simp [hfa, List.lookup, hne, ih]

theorem getD_range_map {β : Type} (f : Nat → β) (n k : Nat) (d : β) (hk : k < n) :
    ((List.range n).map f).getD k d = f k := by
  simp [List.getD_eq_getElem?_getD, List.getElem?_map, List.getElem?_range hk]

/- ---------- C1: absent vs zero-filled series ---------- -/

/-- C1 (amended): the placement-report locator keeps the absent/zero
distinction — a label no row matches is omitted from the result dictionary —
but `extract_business_unit_data` does not: when no label-column cell contains
the needle (here "Revenue" in column 1), it returns a zero-filled series of
the requested width, one `0` per month column, instead of an absent marker. -/
theorem absent_vs_zero_fill (t : Table) (label : String) :
    ((∀ r ∈ t.rows, strHasSubCI label (pyStr (cellAt r 0)) = false) →
      ∀ pr, process_placement_report t = some pr →
        pr.placement_data.lookup label = none ∧ pr.employment_data.lookup label = none)
    ∧ (t.isEmptyTab = false →
      (∀ r ∈ t.rows, strHasSub "Revenue" (pyStr (cellAt r 1)) = false) →
      (extract_business_unit_data t).revenue = List.replicate (monthColIdxs t).length 0) := by
  constructor
  · intro hno pr hpr
    have hloc : locate_series t label = none := by
      have hfind : t.rows.find? (fun r => strHasSubCI label (pyStr (cellAt r 0))) = none :=
        List.find?_eq_none.mpr (fun x hx => by simp [hno x hx])
      simp [locate_series, hfind]
    unfold process_placement_report at hpr
    split at hpr
    · cases hpr
    · obtain rfl : _ = pr := by injection hpr
      exact ⟨lookup_vocab_absent _ _ _ hloc, lookup_vocab_absent _ _ _ hloc⟩
  · intro hne hno
    have hser : unitSeries t 1 "Revenue" = List.replicate (monthColIdxs t).length 0 := by
      unfold unitSeries
      by_cases hlt : 1 < t.headers.length
      · have hfind : t.rows.find? (fun r => strHasSub "Revenue" (pyStr (cellAt r 1))) = none :=
          List.find?_eq_none.mpr (fun x hx => by simp [hno x hx])
        simp [hlt, hfind]
      · simp [hlt]
    unfold extract_business_unit_data
    simp [hne, hser]

/-- The counterexample table for C1: one datetime month column, no row whose
second column contains "Revenue". -/
def c1df : Table :=
  ⟨[.str "Unnamed: 0", .str "Unnamed: 1", .date 2025 1 31],
   [[.str "Something", .str "Else", .num 5]]⟩

unseal Rat.add Rat.mul Rat.sub Rat.inv in
/-- C1 counterexample: on `c1df` no row matches "Revenue", yet
`extract_business_unit_data` returns the zero-filled series `[0]` of the
requested width (one entry per month column) rather than an absent marker,
refuting the claim for the business-unit extraction. -/
theorem business_unit_zero_fill_counterexample :
    c1df.rows.all (fun r => !(strHasSub "Revenue" (pyStr (cellAt r 1)))) = true
    ∧ (monthColIdxs c1df).length = 1
    ∧ (extract_business_unit_data c1df).revenue = List.replicate 1 (0 : ℚ)
    ∧ List.replicate 1 (0 : ℚ) ≠ [] := by
  exact ⟨by decide, by decide, by decide, by decide⟩

/-- The witness table for C1: a placement sheet containing a
"New Placements" row but no "Terminations" row. -/
def c1wdf : Table := ⟨[.str "Metric", .str "Jan"], [[.str "New Placements", .num 4]]⟩

unseal Rat.add Rat.mul Rat.sub Rat.inv in
theorem absent_vs_zero_fill_witness :
    (process_placement_report c1wdf).map (fun pr => pr.placement_data.lookup "Terminations")
      = some none
    ∧ (extract_business_unit_data c1df).revenue = List.replicate (monthColIdxs c1df).length 0 := by
  constructor
  · have hpr : process_placement_report c1wdf =
        some ⟨[], [("New Placements", [4])], [.str "Jan"]⟩ := by decide
    rw [hpr]
    have hlk := ((absent_vs_zero_fill c1wdf "Terminations").1 (by decide) _ hpr).1
    simp [hlk]
  · exact (absent_vs_zero_fill c1df "Terminations").2 (by decide) (by decide)

/- ---------- C5: metric locator coercion and first match ---------- -/

/-- C5: whenever the metric locator returns a series, the series comes from
the first matching row (rows above it do not match), has one entry per value
column (columns `1 .. len(months)`), and each entry is the float coercion of
its cell with every non-numeric or null cell becoming `0` and every numeric
cell keeping its value. -/
theorem locate_series_coercion_first_match (t : Table) (label : String) (series : List ℚ)
    (h : locate_series t label = some series) :
    ∃ i r, t.rows.get? i = some r
      ∧ strHasSubCI label (pyStr (cellAt r 0)) = true
      ∧ (∀ j r', j < i → t.rows.get? j = some r' →
          strHasSubCI label (pyStr (cellAt r' 0)) = false)
      ∧ series.length = t.headers.length - 1
      ∧ ∀ k, k < series.length →
          (notna (cellAt r (k + 1)) = false → series.getD k 0 = 0)
          ∧ (pyFloat (cellAt r (k + 1)) = none → series.getD k 0 = 0)
          ∧ (∀ q, pyFloat (cellAt r (k + 1)) = some q → series.getD k 0 = q) := by
  unfold locate_series at h
  cases hfind : t.rows.find? (fun r => strHasSubCI label (pyStr (cellAt r 0))) with
  | none => rw [hfind] at h; cases h
  | some r =>
    rw [hfind] at h
    obtain rfl : _ = series := by injection h
    obtain ⟨i, hg, hp, hf⟩ := find?_first _ t.rows r hfind
    refine ⟨i, r, hg, hp, hf, by simp, ?_⟩
    intro k hk
    rw [List.length_map, List.length_range] at hk
    have hval : ((List.range (t.headers.length - 1)).map
        (fun i => coerceCellPR (cellAt r (i + 1)))).getD k 0 = coerceCellPR (cellAt r (k + 1)) :=
      getD_range_map _ _ _ _ hk
    rw [hval]
    refine ⟨?_, ?_, ?_⟩
    · intro hn
      simp [coerceCellPR, hn]
    · intro hpf
      simp [coerceCellPR, hpf]
    · intro q hpf
      by_cases hn : notna (cellAt r (k + 1)) = true
      · simp [coerceCellPR, hn, hpf]
      · have : cellAt r (k + 1) = .nan := by
          cases hc : cellAt r (k + 1) <;> simp [hc, notna] at hn ⊢
        rw [this] at hpf
        cases hpf

/-- The witness table for C5 (spec scenario 2): a non-matching first row, then
a "Net Income" row with values `[10, 20, "", 40, 50, 60, 70, 80]` in columns
1-8. -/
def c5df : Table :=
  ⟨[.str "Metric", .str "Jan", .str "Feb", .str "Mar", .str "Apr", .str "May", .str "Jun",
    .str "Jul", .str "Aug"],
   [[.str "Other", .num 1, .num 2, .num 3, .num 4, .num 5, .num 6, .num 7, .num 8],
    [.str "Net Income", .num 10, .num 20, .str "", .num 40, .num 50, .num 60, .num 70,
     .num 80]]⟩

unseal Rat.add Rat.mul Rat.sub Rat.inv in
theorem locate_series_coercion_first_match_witness :
    locate_series c5df "Net Income" = some [10, 20, 0, 40, 50, 60, 70, 80]
    ∧ ∃ i r, c5df.rows.get? i = some r
      ∧ strHasSubCI "Net Income" (pyStr (cellAt r 0)) = true
      ∧ (∀ j r', j < i → c5df.rows.get? j = some r' →
          strHasSubCI "Net Income" (pyStr (cellAt r' 0)) = false)
      ∧ ([(10 : ℚ), 20, 0, 40, 50, 60, 70, 80] : List ℚ).length = c5df.headers.length - 1
      ∧ ∀ k, k < ([(10 : ℚ), 20, 0, 40, 50, 60, 70, 80] : List ℚ).length →
          (notna (cellAt r (k + 1)) = false →
            ([(10 : ℚ), 20, 0, 40, 50, 60, 70, 80] : List ℚ).getD k 0 = 0)
          ∧ (pyFloat (cellAt r (k + 1)) = none →
            ([(10 : ℚ), 20, 0, 40, 50, 60, 70, 80] : List ℚ).getD k 0 = 0)
          ∧ (∀ q, pyFloat (cellAt r (k + 1)) = some q →
            ([(10 : ℚ), 20, 0, 40, 50, 60, 70, 80] : List ℚ).getD k 0 = q) :=
  ⟨by decide, locate_series_coercion_first_match c5df "Net Income" _ (by decide)⟩

/- ---------- C6: date normalizer ---------- -/

theorem cellAt_enum_map (g : Nat × Cell → Cell) (r : List Cell) (i : Nat) :
    cellAt (r.enum.map g) i = ((r[i]?).map (fun c => g (i, c))).getD .nan := by
  unfold cellAt
  rw [List.getD_eq_getElem?_getD, List.getElem?_map, List.enum, List.getElem?_enumFrom]
  cases hc : r[i]? with
  | none => rfl
  | some c => simp

/-- C6 (amended): `pd.to_datetime(..., errors="ignore")` is per-column
all-or-nothing, not per-cell: a candidate date column is converted exactly
when every non-null cell in it parses; if even one cell fails to parse the
whole column — including the cells that would parse — is left unmodified, and
non-candidate columns are never touched.  This holds for every per-cell
parser. -/
theorem try_parse_dates_column_policy (parse : Cell → Option Date) (t : Table)
    (cands : Option (List Nat)) (i : Nat) :
    (t.isEmptyTab = false → i ∈ cands.getD (dateColCandidates t) →
      (colAllParse parse (colCells t i) = true →
        colCells (try_parse_dates parse t cands) i = (colCells t i).map (convertCell parse))
      ∧ (colAllParse parse (colCells t i) = false →
        colCells (try_parse_dates parse t cands) i = colCells t i))
    ∧ (t.isEmptyTab = false → i ∉ cands.getD (dateColCandidates t) →
      colCells (try_parse_dates parse t cands) i = colCells t i) := by
  have hrow : ∀ (hne : t.isEmptyTab = false),
      colCells (try_parse_dates parse t cands) i = t.rows.map (fun r =>
        cellAt (r.enum.map (fun ic =>
          if decide (ic.1 ∈ cands.getD (dateColCandidates t)) &&
              colAllParse parse (colCells t ic.1) then
            convertCell parse ic.2
          else ic.2)) i) := by
    intro hne
    unfold try_parse_dates
    rw [if_neg (by simp [hne])]
    unfold colCells
    rw [List.map_map]
    rfl
  constructor
  · intro hne hmem
    constructor
    · intro hall
      have hall2 : colAllParse parse (t.rows.map (fun r => r[i]?.getD Cell.nan)) = true := by
        simpa [colCells, cellAt, List.getD_eq_getElem?_getD] using hall
      rw [hrow hne]
      unfold colCells
      rw [List.map_map]
      apply List.map_congr_left
      intro r _
      rw [cellAt_enum_map]
      cases hc : r[i]? with
      | none => simp [cellAt, List.getD_eq_getElem?_getD, hc, convertCell]
      | some c => simp [cellAt, List.getD_eq_getElem?_getD, hc, hmem, hall2, colCells]
    · intro hfail
      have hfail2 : colAllParse parse (t.rows.map (fun r => r[i]?.getD Cell.nan)) = false := by
        simpa [colCells, cellAt, List.getD_eq_getElem?_getD] using hfail
      rw [hrow hne]
      unfold colCells
      apply List.map_congr_left
      intro r _
      rw [cellAt_enum_map]
      cases hc : r[i]? with
      | none => simp [cellAt, List.getD_eq_getElem?_getD, hc]
      | some c => simp [cellAt, List.getD_eq_getElem?_getD, hc, hfail2, colCells]
  · intro hne hmem
    rw [hrow hne]
    unfold colCells
    apply List.map_congr_left
    intro r _
    rw [cellAt_enum_map]
    cases hc : r[i]? with
    | none => simp [cellAt, List.getD_eq_getElem?_getD, hc]
    | some c => simp [cellAt, List.getD_eq_getElem?_getD, hc, hmem]

/-- The counterexample table for C6: one column named "date" holding one
parseable cell and one unparseable cell. -/
def c6df : Table := ⟨[.str "date"], [[.str "2025-01-15"], [.str "notadate"]]⟩

/-- A variant of `c6df` in which every cell of the "date" column parses. -/
def c6ok : Table := ⟨[.str "date"], [[.str "2025-01-15"], [.date 2025 2 1]]⟩

/-- C6 counterexample: in `c6df` the cell "2025-01-15" parses (both here and
in pandas), yet because its neighbour "notadate" fails, `errors="ignore"`
returns the whole column unchanged and the parseable cell is left unmodified —
refuting the claimed per-cell policy under which one unparseable cell does not
prevent normalization of the others. -/
theorem try_parse_dates_per_cell_counterexample :
    try_parse_dates parseDateCell c6df none = c6df
    ∧ parseDateCell (.str "2025-01-15") = some ⟨2025, 1, 15⟩
    ∧ cellAt (c6df.rows.getD 0 []) 0 = .str "2025-01-15"
    ∧ (Cell.str "2025-01-15") ≠ Cell.date 2025 1 15 := by
  exact ⟨by decide, by decide, by decide, by decide⟩

theorem try_parse_dates_column_policy_witness :
    colCells (try_parse_dates parseDateCell c6df none) 0 = colCells c6df 0
    ∧ colCells (try_parse_dates parseDateCell c6ok none) 0 =
        (colCells c6ok 0).map (convertCell parseDateCell) :=
  ⟨((try_parse_dates_column_policy parseDateCell c6df none 0).1 (by decide)
      (by decide)).2 (by decide),
   ((try_parse_dates_column_policy parseDateCell c6ok none 0).1 (by decide)
      (by decide)).1 (by decide)⟩

/- ---------- C3: monthly rollup ---------- -/

theorem mem_sortedMonths (l : List Date) (x : Date) : x ∈ sortedMonths l ↔ x ∈ l := by
  unfold sortedMonths
  rw [(List.perm_insertionSort dle l.dedup).mem_iff, List.mem_dedup]

theorem nodup_sortedMonths (l : List Date) : (sortedMonths l).Nodup := by
  unfold sortedMonths
  exact ((List.perm_insertionSort dle l.dedup).nodup_iff).mpr (List.nodup_dedup l)

theorem dlt_trichotomy (a b : Date) : dlt a b ∨ a = b ∨ dlt b a := by
  rcases a with ⟨ya, ma, da⟩
  rcases b with ⟨yb, mb, db⟩
  simp only [dlt, Date.mk.injEq]
  omega

theorem pairwise_dlt_sortedMonths (l : List Date) : List.Pairwise dlt (sortedMonths l) := by
  have hs : List.Sorted dle (sortedMonths l) := List.sorted_insertionSort dle l.dedup
  have hnd : (sortedMonths l).Nodup := nodup_sortedMonths l
  refine (hs.and hnd).imp ?_
  intro a b hab
  rcases dlt_trichotomy a b with h | h | h
  · exact h
  · exact absurd h hab.2
  · exact absurd h hab.1

theorem count_filterMap_eq_filter_length {α β : Type} [DecidableEq β] (f : α → Option β)
    (l : List α) (y : β) :
    (l.filterMap f).count y = (l.filter (fun x => decide (f x = some y))).length := by
  induction l with
  | nil => rfl
  | cons a tl ih =>
    cases hfa : f a with
    | none => simp [List.filterMap_cons, hfa, ih, List.filter_cons]
    | some b =>
      by_cases hb : b = y
      · subst hb
        simp [List.filterMap_cons, hfa, List.count_cons, ih, List.filter_cons]
      · simp [List.filterMap_cons, hfa, List.count_cons, hb, ih, List.filter_cons]

theorem sum_ite_count {α : Type} [DecidableEq α] (D : List α) (a : α) (hnd : D.Nodup)
    (ha : a ∈ D) : (D.map (fun x => if x = a then 1 else 0)).sum = 1 := by
  induction D with
  | nil => cases ha
  | cons b tl ih =>
    rcases List.mem_cons.mp ha with heq | hmem
    · have hnotin : b ∉ tl := (List.nodup_cons.mp hnd).1
      have hz : (tl.map (fun x => if x = a then 1 else 0)).sum = 0 := by
        apply List.sum_eq_zero
        intro x hx
        obtain ⟨y, hy, rfl⟩ := List.mem_map.mp hx
        have hya : y ≠ a := fun h => hnotin (heq ▸ h ▸ hy)
        simp [hya]
      simp only [List.map_cons, List.sum_cons, hz]
      rw [if_pos heq.symm]
    · have hba : b ≠ a := fun h => (List.nodup_cons.mp hnd).1 (h ▸ hmem)
      simp [hba, ih (List.nodup_cons.mp hnd).2 hmem]

theorem sum_map_add_distrib {α : Type} (D : List α) (f g : α → Nat) :
    (D.map (fun x => f x + g x)).sum = (D.map f).sum + (D.map g).sum := by
  induction D with
  | nil => rfl
  | cons b tl ih =>
    simp only [List.map_cons, List.sum_cons, ih]
    omega

theorem sum_count_eq_length {α : Type} [DecidableEq α] (D : List α) (L : List α)
    (hnd : D.Nodup) (hcov : ∀ x ∈ L, x ∈ D) :
    (D.map (fun x => L.count x)).sum = L.length := by
  induction L with
  | nil => simp
  | cons a tl ih =>
    have hcov2 : ∀ x ∈ tl, x ∈ D := fun x hx => hcov x (List.mem_cons_of_mem a hx)
    have ha : a ∈ D := hcov a (List.mem_cons_self a tl)
    have hstep : (D.map (fun x => (a :: tl).count x)).sum
        = (D.map (fun x => tl.count x + if x = a then 1 else 0)).sum := by
      apply congrArg
      apply List.map_congr_left
      intro x _
      rw [List.count_cons]
      by_cases hx : x = a
      · simp [hx]
      · have hax : (a == x) = false := by
          simp [beq_iff_eq]
          exact fun h => hx h.symm
        simp [hax, hx]
    rw [hstep, sum_map_add_distrib, ih hcov2, sum_ite_count D a hnd ha]
    simp [Nat.add_comm]

theorem parse_partition {α β : Type} (f : α → Option β) (l : List α) :
    (l.filterMap f).length + (l.filter (fun x => (f x).isNone)).length = l.length := by
  induction l with
  | nil => rfl
  | cons a tl ih =>
    cases hfa : f a <;> simp [List.filterMap_cons, hfa, List.filter_cons] <;> omega

theorem map_fst_parsed (parse : Cell → Option Date) (rows : List (Cell × List (Option ℚ))) :
    (rows.filterMap (fun r => (parse r.1).map (fun dt => (monthOf dt, r.2)))).map Prod.fst
      = rows.filterMap (fun r => (parse r.1).map monthOf) := by
  induction rows with
  | nil => rfl
  | cons r tl ih =>
    cases hp : parse r.1 <;> simp [List.filterMap_cons, hp, ih]

theorem rollup_months (parse : Cell → Option Date) (rows : List (Cell × List (Option ℚ)))
    (aggs : List Agg) :
    (monthly_rollup parse rows aggs).map Prod.fst =
      sortedMonths (rows.filterMap (fun r => (parse r.1).map monthOf)) := by
  simp only [monthly_rollup]
  rw [List.map_map]
  have hid : ∀ l : List Date, ∀ g : Date → List (Option ℚ),
      l.map (Prod.fst ∘ fun mo => (mo, g mo)) = l := by
    intro l g
    have hcomp : (Prod.fst ∘ fun mo : Date => (mo, g mo)) = fun mo => mo := rfl
    rw [hcomp]
    exact List.map_id' l
  rw [hid]
  rw [map_fst_parsed]

/-- C3: the monthly rollup returns the empty frame on empty input; its output
months are strictly ascending; a month appears in the output exactly when the
date of some row parses into it; every row with a parseable date is assigned to
exactly one output month, namely the first day of the calendar month of its
date; and the number of rows excluded (unparseable dates) equals the total row
count minus the sum of the group sizes.  This holds for every per-cell date
parser and every aggregation map. -/
theorem monthly_rollup_spec (parse : Cell → Option Date)
    (rows : List (Cell × List (Option ℚ))) (aggs : List Agg) :
    (rows = [] → monthly_rollup parse rows aggs = [])
    ∧ List.Pairwise dlt ((monthly_rollup parse rows aggs).map Prod.fst)
    ∧ (∀ mo : Date, mo ∈ (monthly_rollup parse rows aggs).map Prod.fst ↔
        ∃ r ∈ rows, (parse r.1).map monthOf = some mo)
    ∧ (∀ r ∈ rows, ∀ dt : Date, parse r.1 = some dt →
        monthOf dt ∈ (monthly_rollup parse rows aggs).map Prod.fst
        ∧ ∀ mo ∈ (monthly_rollup parse rows aggs).map Prod.fst,
            ((parse r.1).map monthOf = some mo ↔ mo = monthOf dt))
    ∧ (rows.filter (fun r => (parse r.1).isNone)).length
        = rows.length -
          (((monthly_rollup parse rows aggs).map Prod.fst).map (fun mo =>
            (rows.filter (fun r => decide ((parse r.1).map monthOf = some mo))).length)).sum := by
  have hM := rollup_months parse rows aggs
  refine ⟨?_, ?_, ?_, ?_, ?_⟩
  · intro h
    subst h
    rfl
  · rw [hM]
    exact pairwise_dlt_sortedMonths _
  · intro mo
    rw [hM, mem_sortedMonths]
    exact List.mem_filterMap
  · intro r hr dt hdt
    have hmem : monthOf dt ∈ rows.filterMap (fun r => (parse r.1).map monthOf) :=
      List.mem_filterMap.mpr ⟨r, hr, by rw [hdt]; rfl⟩
    constructor
    · rw [hM, mem_sortedMonths]
      exact hmem
    · intro mo _
      rw [hdt]
      constructor
      · intro h
        injection h with h
        exact h.symm
      · intro h
        rw [h]
        rfl
  · have hnd : ((monthly_rollup parse rows aggs).map Prod.fst).Nodup := by
      rw [hM]
      exact nodup_sortedMonths _
    have hcov : ∀ x ∈ rows.filterMap (fun r => (parse r.1).map monthOf),
        x ∈ (monthly_rollup parse rows aggs).map Prod.fst := by
      intro x hx
      rw [hM, mem_sortedMonths]
      exact hx
    have hsum : (((monthly_rollup parse rows aggs).map Prod.fst).map (fun mo =>
        (rows.filter (fun r => decide ((parse r.1).map monthOf = some mo))).length)).sum
        = (rows.filterMap (fun r => (parse r.1).map monthOf)).length := by
      have hpt : (((monthly_rollup parse rows aggs).map Prod.fst).map (fun mo =>
          (rows.filter (fun r => decide ((parse r.1).map monthOf = some mo))).length))
          = (((monthly_rollup parse rows aggs).map Prod.fst).map (fun mo =>
          (rows.filterMap (fun r => (parse r.1).map monthOf)).count mo)) := by
        apply List.map_congr_left
        intro mo _
        rw [count_filterMap_eq_filter_length]
      rw [hpt]
      exact sum_count_eq_length _ _ hnd hcov
    have hpart := parse_partition (fun r => (parse r.1).map monthOf) rows
    have hnone : (rows.filter (fun r => ((parse r.1).map monthOf).isNone)).length
        = (rows.filter (fun r => (parse r.1).isNone)).length := by
      apply congrArg
      apply List.filter_congr
      intro r _
      cases hp : parse r.1 <;> simp [hp]
    rw [hsum]
    omega

/-- The witness rows for C3 (spec scenario 1 plus one unparseable row). -/
def c3rows : List (Cell × List (Option ℚ)) :=
  [(.date 2025 1 15, [some 100]), (.date 2025 1 28, [some 50]),
   (.date 2025 2 3, [some 200]), (.str "notadate", [some 7])]

unseal Rat.add Rat.mul Rat.sub Rat.inv in
theorem monthly_rollup_spec_witness :
    monthly_rollup parseDateCell c3rows [Agg.sum] =
      [(⟨2025, 1, 1⟩, [some 150]), (⟨2025, 2, 1⟩, [some 200])]
    ∧ List.Pairwise dlt ((monthly_rollup parseDateCell c3rows [Agg.sum]).map Prod.fst)
    ∧ (monthOf ⟨2025, 1, 15⟩ ∈ (monthly_rollup parseDateCell c3rows [Agg.sum]).map Prod.fst
        ∧ ∀ mo ∈ (monthly_rollup parseDateCell c3rows [Agg.sum]).map Prod.fst,
            ((parseDateCell (Cell.date 2025 1 15, [some (100 : ℚ)]).1).map monthOf = some mo ↔
              mo = monthOf ⟨2025, 1, 15⟩)) := by
  refine ⟨by decide, (monthly_rollup_spec parseDateCell c3rows [Agg.sum]).2.1, ?_⟩
  exact (monthly_rollup_spec parseDateCell c3rows [Agg.sum]).2.2.2.1
    (.date 2025 1 15, [some 100]) (by decide) ⟨2025, 1, 15⟩ (by decide)

/- ---------- C4: P&L identity law ---------- -/

theorem filterMap_id_cons_some (v : ℚ) (l : List (Option ℚ)) :
    List.filterMap id (some v :: l) = v :: List.filterMap id l := rfl

theorem pl_group_sums (G : List (Date × List (Option ℚ)))
    (h : ∀ g ∈ G, ∃ r : PLRow, g.2 = plDerived r) :
    ∃ rev cog opx oi oe : ℚ,
      ((G.map (fun g => g.2.getD 0 none)).filterMap id).sum = rev
      ∧ ((G.map (fun g => g.2.getD 1 none)).filterMap id).sum = cog
      ∧ ((G.map (fun g => g.2.getD 2 none)).filterMap id).sum = opx
      ∧ ((G.map (fun g => g.2.getD 3 none)).filterMap id).sum = rev - cog
      ∧ ((G.map (fun g => g.2.getD 4 none)).filterMap id).sum = (rev - cog) - opx
      ∧ ((G.map (fun g => g.2.getD 5 none)).filterMap id).sum = oi
      ∧ ((G.map (fun g => g.2.getD 6 none)).filterMap id).sum = oe
      ∧ ((G.map (fun g => g.2.getD 7 none)).filterMap id).sum =
          ((rev - cog) - opx) + oi - oe := by
  induction G with
  | nil =>
    refine ⟨0, 0, 0, 0, 0, by simp, by simp, by simp, by simp, by simp, by simp, by simp,
      by simp⟩
  | cons g tl ih =>
    obtain ⟨r, hr⟩ := h g (List.mem_cons_self _ _)
    obtain ⟨rev, cog, opx, oi, oe, h0, h1, h2, h3, h4, h5, h6, h7⟩ :=
      ih (fun x hx => h x (List.mem_cons_of_mem _ hx))
    have e0 : g.2.getD 0 none = some (rowSum r.revenue) := by rw [hr]; rfl
    have e1 : g.2.getD 1 none = some (rowSum r.cogs) := by rw [hr]; rfl
    have e2 : g.2.getD 2 none = some (rowSum r.opex) := by rw [hr]; rfl
    have e3 : g.2.getD 3 none = some (rowSum r.revenue - rowSum r.cogs) := by rw [hr]; rfl
    have e4 : g.2.getD 4 none =
        some ((rowSum r.revenue - rowSum r.cogs) - rowSum r.opex) := by rw [hr]; rfl
    have e5 : g.2.getD 5 none = some (rowSum r.other_income) := by rw [hr]; rfl
    have e6 : g.2.getD 6 none = some (rowSum r.other_expense) := by rw [hr]; rfl
    have e7 : g.2.getD 7 none =
        some (((rowSum r.revenue - rowSum r.cogs) - rowSum r.opex) +
          rowSum r.other_income - rowSum r.other_expense) := by rw [hr]; rfl
    refine ⟨rowSum r.revenue + rev, rowSum r.cogs + cog, rowSum r.opex + opx,
      rowSum r.other_income + oi, rowSum r.other_expense + oe, ?_, ?_, ?_, ?_, ?_, ?_, ?_, ?_⟩
    · rw [List.map_cons, e0, filterMap_id_cons_some, List.sum_cons, h0]
    · rw [List.map_cons, e1, filterMap_id_cons_some, List.sum_cons, h1]
    · rw [List.map_cons, e2, filterMap_id_cons_some, List.sum_cons, h2]
    · rw [List.map_cons, e3, filterMap_id_cons_some, List.sum_cons, h3]
      ring
    · rw [List.map_cons, e4, filterMap_id_cons_some, List.sum_cons, h4]
      ring
    · rw [List.map_cons, e5, filterMap_id_cons_some, List.sum_cons, h5]
    · rw [List.map_cons, e6, filterMap_id_cons_some, List.sum_cons, h6]
    · rw [List.map_cons, e7, filterMap_id_cons_some, List.sum_cons, h7]
      ring

/-- C4: every month of the frame produced by the P&L computation satisfies the
exact identities `gross_profit = revenue − cogs`,
`operating_income = gross_profit − opex` and
`net_income = (revenue − cogs − opex) + other_income − other_expense`, with
missing primitives contributing 0 — the per-row identities survive per-month
summation because summation is linear.  This holds for every date parser. -/
theorem compute_pl_identity_law (parse : Cell → Option Date) (rows : List PLRow)
    (mo : Date) (vals : List (Option ℚ))
    (h : (mo, vals) ∈ compute_pl_fields parse rows) :
    ∃ rev cog opx gp op oi oe ni : ℚ,
      vals = [some rev, some cog, some opx, some gp, some op, some oi, some oe, some ni]
      ∧ gp = rev - cog ∧ op = gp - opx ∧ ni = (rev - cog - opx) + oi - oe := by
  simp only [compute_pl_fields, monthly_rollup] at h
  rw [List.mem_map] at h
  obtain ⟨mo2, hmo2, heq⟩ := h
  injection heq with heq1 heq2
  have heq1s : mo = mo2 := heq1.symm
  subst heq1s
  set parsed := ((rows.map (fun r => (r.date, plDerived r))).filterMap
      (fun r => (parse r.1).map (fun dt => (monthOf dt, r.2)))) with hparsed
  have hG : ∀ g ∈ parsed.filter (fun p => decide (p.1 = mo)),
      ∃ r : PLRow, g.2 = plDerived r := by
    intro g hg
    have hg2 : g ∈ parsed := List.mem_of_mem_filter hg
    rw [hparsed] at hg2
    obtain ⟨x, hx, hfx⟩ := List.mem_filterMap.mp hg2
    obtain ⟨r, _, rfl⟩ := List.mem_map.mp hx
    cases hp : parse (r.date, plDerived r).1 with
    | none => rw [hp] at hfx; cases hfx
    | some dt =>
      rw [hp] at hfx
      refine ⟨r, ?_⟩
      have : (monthOf dt, (r.date, plDerived r).2) = g := by
        simpa using hfx
      rw [← this]
  obtain ⟨rev, cog, opx, oi, oe, h0, h1, h2, h3, h4, h5, h6, h7⟩ :=
    pl_group_sums (parsed.filter (fun p => decide (p.1 = mo))) hG
  refine ⟨rev, cog, opx, rev - cog, (rev - cog) - opx, oi, oe,
    ((rev - cog) - opx) + oi - oe, ?_, rfl, rfl, by ring⟩
  rw [← heq2]
  have hr8 : List.range (List.replicate 8 Agg.sum).length = [0, 1, 2, 3, 4, 5, 6, 7] := by
    decide
  rw [hr8]
  have hgetD : ∀ i : Nat, (List.replicate 8 Agg.sum).getD i Agg.sum = Agg.sum := by
    intro i
    rw [List.getD_eq_getElem?_getD]
    cases hg : (List.replicate 8 Agg.sum)[i]? with
    | none => rfl
    | some a =>
      rw [List.getElem?_replicate] at hg
      by_cases hi : i < 8
      · rw [if_pos hi] at hg
        injection hg with hg
        rw [← hg]
        rfl
      · rw [if_neg hi] at hg
        cases hg
  simp only [List.map_cons, List.map_nil, hgetD, aggApply]
  rw [h0, h1, h2, h3, h4, h5, h6, h7]

/-- The witness row for C4 (spec scenario 4: March revenue 500, COGS 200,
opex 100, no other income/expense). -/
def c4rows : List PLRow :=
  [{ date := .date 2025 3 10, revenue := [.num 500], cogs := [.num 200],
     opex := [.num 100], other_income := [], other_expense := [] }]

unseal Rat.add Rat.mul Rat.sub Rat.inv in
theorem compute_pl_identity_law_witness :
    ((⟨2025, 3, 1⟩ : Date),
        [some (500 : ℚ), some 200, some 100, some 300, some 200, some 0, some 0, some 200])
      ∈ compute_pl_fields parseDateCell c4rows
    ∧ ∃ rev cog opx gp op oi oe ni : ℚ,
        [some (500 : ℚ), some 200, some 100, some 300, some 200, some 0, some 0, some 200]
          = [some rev, some cog, some opx, some gp, some op, some oi, some oe, some ni]
        ∧ gp = rev - cog ∧ op = gp - opx ∧ ni = (rev - cog - opx) + oi - oe :=
  ⟨by decide,
   compute_pl_identity_law parseDateCell c4rows ⟨2025, 3, 1⟩
     [some 500, some 200, some 100, some 300, some 200, some 0, some 0, some 200]
     (by decide)⟩

end App
